import Mathlib

/-!
# Verification of the crypto short-seller trading system

Shallow embedding of the core decision and order-sizing logic of the
trading system (`src/exchange/bybit_client.py`, `src/core/strategy_engine.py`,
`scripts/start_trading.py`) together with proofs about the embedded code.

Modelling conventions:
* Python `float` / `Decimal` arithmetic is modelled by exact rationals (`ℚ`).
* Python `datetime` values are modelled by explicit records of calendar
  fields; `timedelta` comparisons become rational-second comparisons.
* Fallible operations (e.g. `datetime.replace` with an out-of-range day)
  return `Except String _`.
* Python dictionaries keyed by asset symbols are modelled as total
  functions from `String`.
-/

namespace CryptoShort

/-- `Decimal` `ROUND_DOWN` (round toward zero) of a rational, as used by
`BybitClient.round_quantity` via `quantize(Decimal(1), rounding=ROUND_DOWN)`. -/
def truncQ (x : ℚ) : ℤ :=
  if 0 ≤ x then ⌊x⌋ else ⌈x⌉

/-- Cached instrument specifications, as stored by
`BybitClient.get_instrument_info` (bybit_client.py lines 173-181). -/
structure InstrumentSpec where
  min_order_qty : ℚ
  max_order_qty : ℚ
  qty_step : ℚ
  min_notional : ℚ
  price_tick : ℚ
deriving Repr, DecidableEq

/-- `BybitClient.round_quantity` (bybit_client.py lines 196-230).
`specs? = none` models the `symbol not in self.instrument_specs` branch. -/
def round_quantity (specs? : Option InstrumentSpec) (quantity : ℚ) : ℚ :=
  match specs? with
  | none => quantity
  | some specs =>
    let qty_step := specs.qty_step
    let min_qty := specs.min_order_qty
    let max_qty := specs.max_order_qty
    if qty_step ≤ 0 then quantity
    else
      let steps : ℤ := truncQ (quantity / qty_step)
      let rounded_qty : ℚ := (steps : ℚ) * qty_step
      let rounded_qty := if rounded_qty < min_qty then min_qty else rounded_qty
      let rounded_qty := if 0 < max_qty ∧ max_qty < rounded_qty then max_qty else rounded_qty
      rounded_qty

/-- `BybitClient.calculate_quantity_for_usdt_value` (bybit_client.py
lines 232-261). -/
def calculate_quantity_for_usdt_value (specs? : Option InstrumentSpec)
    (target_usdt_value price : ℚ) : ℚ :=
  match specs? with
  | none => target_usdt_value / price
  | some specs =>
    let min_notional := specs.min_notional
    let target_usdt_value :=
      if target_usdt_value < min_notional then min_notional else target_usdt_value
    let raw_quantity := target_usdt_value / price
    let rounded_quantity := round_quantity (some specs) raw_quantity
    let final_notional := rounded_quantity * price
    if final_notional < min_notional then
      let required_quantity := min_notional / price
      round_quantity (some specs) required_quantity
    else
      rounded_quantity

/-- Result dictionary of `BybitClient.validate_order_params`; the error
message strings of the source are elided to a count of recorded errors. -/
structure ValidationResult where
  valid : Bool
  errors : ℕ
  corrected_qty : ℚ
  corrected_price : Option ℚ
deriving Repr, DecidableEq

/-- `BybitClient.validate_order_params` (bybit_client.py lines 263-303).
`price? = none` models `price=None`; a present price `p` passes the Python
truthiness test `if price and ...` exactly when `p ≠ 0`. -/
def validate_order_params (specs? : Option InstrumentSpec) (quantity : ℚ)
    (price? : Option ℚ) : ValidationResult :=
  match specs? with
  | none => { valid := false, errors := 1, corrected_qty := quantity, corrected_price := price? }
  | some specs =>
    let errQty : ℕ := if quantity ≤ 0 then 1 else 0
    let errMin : ℕ := if quantity < specs.min_order_qty then 1 else 0
    let errMax : ℕ := if 0 < specs.max_order_qty ∧ specs.max_order_qty < quantity then 1 else 0
    let errNotional : ℕ :=
      match price? with
      | some p => if p ≠ 0 ∧ 0 < specs.min_notional ∧ quantity * p < specs.min_notional then 1 else 0
      | none => 0
    let total := errQty + errMin + errMax + errNotional
    { valid := total = 0
      errors := total
      corrected_qty := round_quantity (some specs) quantity
      corrected_price := price? }

/-- A rational `q` is an integer multiple of the step `s`. -/
def IsStepMultiple (q s : ℚ) : Prop := ∃ k : ℤ, q = (k : ℚ) * s

lemma truncQ_of_nonneg {x : ℚ} (hx : 0 ≤ x) : truncQ x = ⌊x⌋ := by
  simp [truncQ, hx]

lemma floor_step_le {q s : ℚ} (hs : 0 < s) : ((⌊q / s⌋ : ℚ)) * s ≤ q := by
  rw [← le_div_iff₀ hs]
  exact Int.floor_le (q / s)

lemma lt_floor_step_add {q s : ℚ} (hs : 0 < s) : q < ((⌊q / s⌋ : ℚ)) * s + s := by
  have h := Int.lt_floor_add_one (q / s)
  have := (div_lt_iff₀ hs).mp h
  linarith [this]

/-- `round_quantity` always lands in `[min_order_qty, max_order_qty]` when the
spec is sane (`0 < qty_step`, `0 < min_order_qty ≤ max_order_qty`). -/
lemma round_quantity_mem (specs : InstrumentSpec) (q : ℚ)
    (hstep : 0 < specs.qty_step)
    (hmin : 0 < specs.min_order_qty)
    (hminmax : specs.min_order_qty ≤ specs.max_order_qty) :
    specs.min_order_qty ≤ round_quantity (some specs) q ∧
      round_quantity (some specs) q ≤ specs.max_order_qty := by
  have hmax : 0 < specs.max_order_qty := lt_of_lt_of_le hmin hminmax
  unfold round_quantity
  simp only [not_le.mpr hstep, if_false]
  set fr : ℚ := ((truncQ (q / specs.qty_step) : ℚ)) * specs.qty_step with hfr
  by_cases h1 : fr < specs.min_order_qty
  · simp only [h1, if_true]
    have : ¬ (0 < specs.max_order_qty ∧ specs.max_order_qty < specs.min_order_qty) := by
      rintro ⟨-, hlt⟩; exact absurd hminmax (not_le.mpr hlt)
    simp only [this, if_false]
    exact ⟨le_refl _, hminmax⟩
  · simp only [h1, if_false]
    by_cases h2 : 0 < specs.max_order_qty ∧ specs.max_order_qty < fr
    · simp only [h2, if_true]
      exact ⟨hminmax, le_refl _⟩
    · simp only [h2, if_false]
      refine ⟨not_lt.mp h1, ?_⟩
      rcases not_and_or.mp h2 with h | h
      · exact absurd hmax h
      · exact not_lt.mp h

/-- `round_quantity` returns an integer multiple of the step provided the
min and max order quantities are themselves multiples of the step. -/
lemma round_quantity_step_multiple (specs : InstrumentSpec) (q : ℚ)
    (hstep : 0 < specs.qty_step)
    (hminmul : IsStepMultiple specs.min_order_qty specs.qty_step)
    (hmaxmul : IsStepMultiple specs.max_order_qty specs.qty_step) :
    IsStepMultiple (round_quantity (some specs) q) specs.qty_step := by
  unfold round_quantity
  simp only [not_le.mpr hstep, if_false]
  set fr : ℚ := ((truncQ (q / specs.qty_step) : ℚ)) * specs.qty_step with hfr
  have hfrmul : IsStepMultiple fr specs.qty_step := ⟨truncQ (q / specs.qty_step), rfl⟩
  by_cases h1 : fr < specs.min_order_qty
  · simp only [h1, if_true]
    split
    · exact hmaxmul
    · exact hminmul
  · simp only [h1, if_false]
    split
    · exact hmaxmul
    · exact hfrmul

/-- When the input quantity already lies below the max, the max-quantity clamp
of `round_quantity` never fires, and the result exceeds `q - qty_step`. -/
lemma round_quantity_lower_bound (specs : InstrumentSpec) (q : ℚ)
    (hstep : 0 < specs.qty_step)
    (hq : 0 ≤ q)
    (hqmax : q ≤ specs.max_order_qty)
    (hminmax : specs.min_order_qty ≤ specs.max_order_qty) :
    q - specs.qty_step < round_quantity (some specs) q := by
  have hq' : 0 ≤ q / specs.qty_step := div_nonneg hq (le_of_lt hstep)
  unfold round_quantity
  simp only [not_le.mpr hstep, if_false, truncQ_of_nonneg hq']
  set fr : ℚ := ((⌊q / specs.qty_step⌋ : ℚ)) * specs.qty_step with hfr
  have hfrq : fr ≤ q := floor_step_le hstep
  have hfrlt : q - specs.qty_step < fr := by
    have := lt_floor_step_add (q := q) (s := specs.qty_step) hstep
    linarith
  by_cases h1 : fr < specs.min_order_qty
  · simp only [h1, if_true]
    have : ¬ (0 < specs.max_order_qty ∧ specs.max_order_qty < specs.min_order_qty) := by
      rintro ⟨-, hlt⟩; exact absurd hminmax (not_le.mpr hlt)
    simp only [this, if_false]
    linarith
  · simp only [h1, if_false]
    have hnoclamp : ¬ (0 < specs.max_order_qty ∧ specs.max_order_qty < fr) := by
      rintro ⟨-, hlt⟩
      exact absurd (le_trans hfrq hqmax) (not_le.mpr hlt)
    simp only [hnoclamp, if_false]
    exact hfrlt

/-- When the input quantity is non-negative and at most `max_order_qty`, the
max clamp of `round_quantity` cannot fire and the result is the step floor,
bumped to `min_order_qty` when below it. -/
lemma round_quantity_eq_of_le_max (specs : InstrumentSpec) (q : ℚ)
    (hstep : 0 < specs.qty_step)
    (hq : 0 ≤ q)
    (hqmax : q ≤ specs.max_order_qty)
    (hminmax : specs.min_order_qty ≤ specs.max_order_qty) :
    round_quantity (some specs) q =
      if ((⌊q / specs.qty_step⌋ : ℚ)) * specs.qty_step < specs.min_order_qty
      then specs.min_order_qty
      else ((⌊q / specs.qty_step⌋ : ℚ)) * specs.qty_step := by
  have hq' : 0 ≤ q / specs.qty_step := div_nonneg hq (le_of_lt hstep)
  unfold round_quantity
  simp only [not_le.mpr hstep, if_false, truncQ_of_nonneg hq']
  set fr : ℚ := ((⌊q / specs.qty_step⌋ : ℚ)) * specs.qty_step with hfr
  have hfrq : fr ≤ q := floor_step_le hstep
  by_cases h1 : fr < specs.min_order_qty
  · simp only [h1, if_true]
    have : ¬ (0 < specs.max_order_qty ∧ specs.max_order_qty < specs.min_order_qty) := by
      rintro ⟨-, hlt⟩; exact absurd hminmax (not_le.mpr hlt)
    simp only [this, if_false]
  · simp only [h1, if_false]
    have : ¬ (0 < specs.max_order_qty ∧ specs.max_order_qty < fr) := by
      rintro ⟨-, hlt⟩
      exact absurd (le_trans hfrq hqmax) (not_le.mpr hlt)
    simp only [this, if_false]

/-- The conditions equivalent to `validate_order_params` reporting valid for a
cached spec and a present price. -/
lemma validate_valid_iff (specs : InstrumentSpec) (quantity p : ℚ) :
    (validate_order_params (some specs) quantity (some p)).valid = true ↔
      ¬ (quantity ≤ 0) ∧ ¬ (quantity < specs.min_order_qty) ∧
      ¬ (0 < specs.max_order_qty ∧ specs.max_order_qty < quantity) ∧
      ¬ (p ≠ 0 ∧ 0 < specs.min_notional ∧ quantity * p < specs.min_notional) := by
  simp only [validate_order_params, decide_eq_true_eq]
  split_ifs <;> simp_all

/-- Instrument spec used in the C1 counterexample and witness. -/
def specC1 : InstrumentSpec :=
  { min_order_qty := 1, max_order_qty := 100, qty_step := 1, min_notional := 5, price_tick := 1 }

/-- Instrument spec used in the C2 counterexample (notional undershoot). -/
def specC2a : InstrumentSpec :=
  { min_order_qty := 1, max_order_qty := 100, qty_step := 3, min_notional := 10, price_tick := 1 }

/-- Instrument spec used in the C2 counterexample (min quantity not a step
multiple). -/
def specC2b : InstrumentSpec :=
  { min_order_qty := 3, max_order_qty := 100, qty_step := 2, min_notional := 0, price_tick := 1 }

/-- C1 (counterexample): with spec `min_qty = 1, max_qty = 100, qty_step = 1,
min_notional = 5`, price `3` and target notional `4`, the sizer returns
quantity `1` whose notional `3` violates the minimum notional `5`, even though
the quantity `2` is feasible (a step multiple in `[1, 100]` with notional
`6 ≥ 5`), and no error is reported: `calculate_quantity_for_usdt_value` floors
`min_notional / price = 5/3` to `1` instead of rounding it up. This refutes
the claimed rounding invariant. -/
theorem c1_sizer_counterexample :
    (0 < (3 : ℚ) ∧ 0 < (specC1.qty_step) ∧ specC1.min_order_qty ≤ specC1.max_order_qty ∧
        0 ≤ specC1.min_notional ∧ 0 < (4 : ℚ)) ∧
    (IsStepMultiple 2 specC1.qty_step ∧ specC1.min_order_qty ≤ 2 ∧
        (2 : ℚ) ≤ specC1.max_order_qty ∧ specC1.min_notional ≤ 2 * 3) ∧
    calculate_quantity_for_usdt_value (some specC1) 4 3 = 1 ∧
    (1 : ℚ) * 3 < specC1.min_notional := by
  refine ⟨⟨by norm_num, by norm_num [specC1], by norm_num [specC1], by norm_num [specC1],
      by norm_num⟩, ⟨⟨2, by norm_num [specC1]⟩, by norm_num [specC1], by norm_num [specC1],
      by norm_num [specC1]⟩, ?_, by norm_num [specC1]⟩
  norm_num [calculate_quantity_for_usdt_value, round_quantity, truncQ, specC1]

/-- C1 (amended): for every instrument spec with `0 < qty_step`,
`0 < min_qty ≤ max_qty`, `min_qty` and `max_qty` integer multiples of
`qty_step`, and any target notional and price, the sizer
(`calculate_quantity_for_usdt_value` composed with `round_quantity`) returns a
non-negative quantity that is an integer multiple of `qty_step` and lies in
`[min_qty, max_qty]`. (The original minimum-notional guarantee and the
error-reporting clause fail, see `c1_sizer_counterexample`: the function
always returns a quantity and its notional can undershoot the minimum even
when a feasible quantity exists.) -/
theorem c1_sizer_output_in_range (specs : InstrumentSpec) (target price : ℚ)
    (hstep : 0 < specs.qty_step)
    (hmin : 0 < specs.min_order_qty)
    (hminmax : specs.min_order_qty ≤ specs.max_order_qty)
    (hminmul : IsStepMultiple specs.min_order_qty specs.qty_step)
    (hmaxmul : IsStepMultiple specs.max_order_qty specs.qty_step) :
    0 ≤ calculate_quantity_for_usdt_value (some specs) target price ∧
    specs.min_order_qty ≤ calculate_quantity_for_usdt_value (some specs) target price ∧
    calculate_quantity_for_usdt_value (some specs) target price ≤ specs.max_order_qty ∧
    IsStepMultiple (calculate_quantity_for_usdt_value (some specs) target price)
      specs.qty_step := by
  have key : ∀ q : ℚ,
      0 ≤ round_quantity (some specs) q ∧
      specs.min_order_qty ≤ round_quantity (some specs) q ∧
      round_quantity (some specs) q ≤ specs.max_order_qty ∧
      IsStepMultiple (round_quantity (some specs) q) specs.qty_step := by
    intro q
    obtain ⟨h1, h2⟩ := round_quantity_mem specs q hstep hmin hminmax
    exact ⟨le_trans (le_of_lt hmin) h1, h1, h2,
      round_quantity_step_multiple specs q hstep hminmul hmaxmul⟩
  simp only [calculate_quantity_for_usdt_value]
  split <;> split <;> exact key _

/-- C1 witness: the amended theorem applied at the counterexample's spec
(`min_qty = 1, max_qty = 100, qty_step = 1`), target `4`, price `3`. -/
theorem c1_sizer_output_in_range_witness :
    (0 < specC1.qty_step ∧ 0 < specC1.min_order_qty ∧
      specC1.min_order_qty ≤ specC1.max_order_qty ∧
      IsStepMultiple specC1.min_order_qty specC1.qty_step ∧
      IsStepMultiple specC1.max_order_qty specC1.qty_step) ∧
    (0 ≤ calculate_quantity_for_usdt_value (some specC1) 4 3 ∧
      specC1.min_order_qty ≤ calculate_quantity_for_usdt_value (some specC1) 4 3 ∧
      calculate_quantity_for_usdt_value (some specC1) 4 3 ≤ specC1.max_order_qty ∧
      IsStepMultiple (calculate_quantity_for_usdt_value (some specC1) 4 3) specC1.qty_step) :=
  ⟨⟨by norm_num [specC1], by norm_num [specC1], by norm_num [specC1],
      ⟨1, by norm_num [specC1]⟩, ⟨100, by norm_num [specC1]⟩⟩,
    c1_sizer_output_in_range specC1 4 3 (by norm_num [specC1]) (by norm_num [specC1])
      (by norm_num [specC1]) ⟨1, by norm_num [specC1]⟩ ⟨100, by norm_num [specC1]⟩⟩

/-- C2 (counterexample): two concrete inputs on which `validate_order_params`
reports `valid = true` yet its `corrected_qty` violates the claimed bounds.
With spec `min_qty = 1, max_qty = 100, qty_step = 3, min_notional = 10`,
quantity `10` at price `1` validates (notional `10 ≥ 10`) but the corrected
quantity `9` has notional `9 < 10`. With spec `min_qty = 3, qty_step = 2,
min_notional = 0`, quantity `3` at price `1` validates but the corrected
quantity `3` is not an integer multiple of the step `2`. -/
theorem c2_validate_counterexample :
    ((validate_order_params (some specC2a) 10 (some 1)).valid = true ∧
      (validate_order_params (some specC2a) 10 (some 1)).corrected_qty * 1 <
        specC2a.min_notional) ∧
    ((validate_order_params (some specC2b) 3 (some 1)).valid = true ∧
      ¬ IsStepMultiple (validate_order_params (some specC2b) 3 (some 1)).corrected_qty
        specC2b.qty_step) := by
  refine ⟨⟨?_, ?_⟩, ?_, ?_⟩
  · norm_num [validate_order_params, specC2a]
  · norm_num [validate_order_params, round_quantity, truncQ, specC2a]
  · norm_num [validate_order_params, specC2b]
  · have hq : (validate_order_params (some specC2b) 3 (some 1)).corrected_qty = 3 := by
      norm_num [validate_order_params, round_quantity, truncQ, specC2b]
    rw [hq]
    rintro ⟨k, hk⟩
    have hstep : specC2b.qty_step = 2 := rfl
    rw [hstep] at hk
    have h2 : (2 * k : ℚ) = 3 := by linarith
    have : (2 * k : ℤ) = 3 := by exact_mod_cast h2
    omega

/-- C2 (amended): for every cached instrument spec with `0 < qty_step`,
`0 < min_qty ≤ max_qty` and `min_qty` an integer multiple of `qty_step`, and
every quantity and positive price, if `validate_order_params` reports
`valid = true` then its `corrected_qty` is non-negative, lies in
`[min_qty, max_qty]`, is an integer multiple of `qty_step` or equal to
`min_qty`, and its notional exceeds `min_notional - qty_step * price`. (The
exact bound `corrected_qty * price ≥ min_notional` of the original claim can
fail, because the notional check examines the input quantity before the
rounding that produces `corrected_qty`; see `c2_validate_counterexample`.) -/
theorem c2_validate_corrected_qty (specs : InstrumentSpec) (quantity price : ℚ)
    (hstep : 0 < specs.qty_step)
    (hmin : 0 < specs.min_order_qty)
    (hminmax : specs.min_order_qty ≤ specs.max_order_qty)
    (hminmul : IsStepMultiple specs.min_order_qty specs.qty_step)
    (hprice : 0 < price)
    (hvalid : (validate_order_params (some specs) quantity (some price)).valid = true) :
    0 ≤ (validate_order_params (some specs) quantity (some price)).corrected_qty ∧
    specs.min_order_qty ≤
      (validate_order_params (some specs) quantity (some price)).corrected_qty ∧
    (validate_order_params (some specs) quantity (some price)).corrected_qty ≤
      specs.max_order_qty ∧
    IsStepMultiple ((validate_order_params (some specs) quantity
      (some price)).corrected_qty) specs.qty_step ∧
    specs.min_notional - specs.qty_step * price <
      (validate_order_params (some specs) quantity (some price)).corrected_qty * price := by
  have hmax : 0 < specs.max_order_qty := lt_of_lt_of_le hmin hminmax
  have hcq : (validate_order_params (some specs) quantity (some price)).corrected_qty =
      round_quantity (some specs) quantity := rfl
  obtain ⟨h0, hqmin, hqmaxc, hnotional⟩ := (validate_valid_iff specs quantity price).mp hvalid
  have hq0 : 0 < quantity := lt_of_not_le h0
  have hqmin' : specs.min_order_qty ≤ quantity := not_lt.mp hqmin
  have hqmax : quantity ≤ specs.max_order_qty := by
    by_contra h
    exact hqmaxc ⟨hmax, lt_of_not_le h⟩
  have hmn : 0 < specs.min_notional → specs.min_notional ≤ quantity * price := by
    intro hpos
    by_contra h
    exact hnotional ⟨ne_of_gt hprice, hpos, lt_of_not_le h⟩
  rw [hcq, round_quantity_eq_of_le_max specs quantity hstep (le_of_lt hq0) hqmax hminmax]
  set fr : ℚ := ((⌊quantity / specs.qty_step⌋ : ℚ)) * specs.qty_step with hfr
  have hfrgt : quantity - specs.qty_step < fr := by
    have := lt_floor_step_add (q := quantity) (s := specs.qty_step) hstep
    linarith
  have hfrmax : fr ≤ specs.max_order_qty := le_trans (floor_step_le hstep) hqmax
  have hnot : ∀ c : ℚ, quantity - specs.qty_step < c → 0 < c →
      specs.min_notional - specs.qty_step * price < c * price := by
    intro c hc hcpos
    by_cases hp : 0 < specs.min_notional
    · have h1 := hmn hp
      nlinarith
    · nlinarith [not_lt.mp hp]
  by_cases h1 : fr < specs.min_order_qty
  · simp only [h1, if_true]
    refine ⟨le_of_lt hmin, le_refl _, hminmax, hminmul, ?_⟩
    exact hnot specs.min_order_qty (lt_trans hfrgt h1) hmin
  · simp only [h1, if_false]
    have hfrmin : specs.min_order_qty ≤ fr := not_lt.mp h1
    refine ⟨le_trans (le_of_lt hmin) hfrmin, hfrmin, hfrmax,
      ⟨⌊quantity / specs.qty_step⌋, rfl⟩, ?_⟩
    exact hnot fr hfrgt (lt_of_lt_of_le hmin hfrmin)

/-- C2 witness: the amended theorem applied at the spec `specC1`
(`min_qty = 1, max_qty = 100, qty_step = 1, min_notional = 5`) with quantity
`10` and price `1`. -/
theorem c2_validate_corrected_qty_witness :
    (0 < specC1.qty_step ∧ 0 < specC1.min_order_qty ∧
      specC1.min_order_qty ≤ specC1.max_order_qty ∧
      IsStepMultiple specC1.min_order_qty specC1.qty_step ∧ 0 < (1 : ℚ) ∧
      (validate_order_params (some specC1) 10 (some 1)).valid = true) ∧
    (0 ≤ (validate_order_params (some specC1) 10 (some 1)).corrected_qty ∧
      specC1.min_order_qty ≤ (validate_order_params (some specC1) 10 (some 1)).corrected_qty ∧
      (validate_order_params (some specC1) 10 (some 1)).corrected_qty ≤
        specC1.max_order_qty ∧
      IsStepMultiple ((validate_order_params (some specC1) 10 (some 1)).corrected_qty)
        specC1.qty_step ∧
      specC1.min_notional - specC1.qty_step * 1 <
        (validate_order_params (some specC1) 10 (some 1)).corrected_qty * 1) :=
  ⟨⟨by norm_num [specC1], by norm_num [specC1], by norm_num [specC1],
      ⟨1, by norm_num [specC1]⟩, by norm_num, by norm_num [validate_order_params, specC1]⟩,
    c2_validate_corrected_qty specC1 10 1 (by norm_num [specC1]) (by norm_num [specC1])
      (by norm_num [specC1]) ⟨1, by norm_num [specC1]⟩ (by norm_num)
      (by norm_num [validate_order_params, specC1])⟩

/-! ## Strategy engine (`src/core/strategy_engine.py`)

Timestamps are rational numbers of seconds; `datetime.now(timezone.utc)` is
passed in explicitly as a `now` parameter. Per-asset dictionaries are total
functions from the asset symbol. -/

inductive SignalType
  | NO_ACTION
  | ENTER_SHORT
  | EXIT_POSITION
deriving Repr, DecidableEq

inductive MarketRegime
  | ACTIVE
  | INACTIVE
deriving Repr, DecidableEq

inductive CrossType
  | PRICE_BELOW_EMA240
  | PRICE_BELOW_EMA600
deriving Repr, DecidableEq

/-- A cross-event dictionary as appended by `detect_price_ema_crosses`. -/
structure CrossEvent where
  asset : String
  type : CrossType
  timestamp : ℚ
  price : ℚ
  ema : ℚ
deriving Repr, DecidableEq

/-- `MarketData` dataclass (strategy_engine.py lines 41-48). -/
structure MarketData where
  asset : String
  price : ℚ
  ema_240 : ℚ
  ema_600 : ℚ
  volume : ℚ
  timestamp : ℚ
deriving Repr, DecidableEq

/-- One entry of `MultiAssetStrategyEngine.asset_positions`. -/
structure Position where
  in_position : Bool
  entry_price : ℚ
  asset_amount : ℚ
  leveraged_value : ℚ
  entry_time : Option ℚ
deriving Repr, DecidableEq

/-- The `metadata` dictionary attached to every `TradingSignal` by
`generate_asset_signal`. -/
structure SignalMetadata where
  ema_240 : ℚ
  ema_600 : ℚ
  regime : MarketRegime
  cross_events : List CrossEvent
deriving Repr, DecidableEq

/-- The `reason` strings of `generate_asset_signal`, elided to their
discriminating content. -/
inductive SignalReason
  | inPositionExitSeparately
  | regimeNotActive (regime : MarketRegime)
  | dailyLimitExceeded (count threshold : ℕ)
  | noRecentCross
  | crossEntry (cross_types : List CrossType)
deriving Repr, DecidableEq

/-- `TradingSignal` dataclass (strategy_engine.py lines 50-56). -/
structure TradingSignal where
  asset : String
  signal_type : SignalType
  price : ℚ
  reason : SignalReason
  metadata : SignalMetadata
deriving Repr, DecidableEq

/-- Mutable per-asset engine state of `MultiAssetStrategyEngine.__init__`. -/
structure EngineState where
  asset_positions : String → Position
  current_regimes : String → MarketRegime
  previous_prices : String → Option ℚ
  previous_emas_240 : String → Option ℚ
  previous_emas_600 : String → Option ℚ
  recent_cross_events : String → List CrossEvent
  daily_cross_count : String → ℕ
  cross_threshold : ℕ

/-- Point update of a per-asset dictionary. -/
def updState {α : Type} (f : String → α) (a : String) (x : α) : String → α :=
  fun b => if b = a then x else f b

/-- `MultiAssetStrategyEngine.update_position` (strategy_engine.py
lines 115-125); `now` stands for `datetime.now(timezone.utc)`. -/
def update_position (st : EngineState) (asset : String) (in_position : Bool)
    (entry_price asset_amount leveraged_value now : ℚ) : EngineState :=
  { st with
    asset_positions := updState st.asset_positions asset
      { in_position := in_position
        entry_price := entry_price
        asset_amount := asset_amount
        leveraged_value := leveraged_value
        entry_time := if in_position then some now else none } }

/-- `MultiAssetStrategyEngine.determine_market_regime` (strategy_engine.py
lines 128-146). -/
def determine_market_regime (st : EngineState) (md : MarketData) :
    EngineState × MarketRegime :=
  let regime :=
    if md.price < md.ema_240 ∧ md.price < md.ema_600 then MarketRegime.ACTIVE
    else MarketRegime.INACTIVE
  ({ st with current_regimes := updState st.current_regimes md.asset regime }, regime)

/-- The regime rule rejected by the spec, modelled from the spec's words:
Active when the price lies strictly between the two EMAs. Used only to show
the implementation does not follow it. -/
def determine_market_regime_alternative (md : MarketData) : MarketRegime :=
  if (min md.ema_240 md.ema_600 < md.price ∧ md.price < max md.ema_240 md.ema_600)
  then MarketRegime.ACTIVE else MarketRegime.INACTIVE

/-- `MultiAssetStrategyEngine.detect_price_ema_crosses` (strategy_engine.py
lines 148-205). -/
def detect_price_ema_crosses (st : EngineState) (md : MarketData) :
    EngineState × List CrossEvent :=
  let asset := md.asset
  let previous_price := st.previous_prices asset
  let previous_ema_240 := st.previous_emas_240 asset
  let previous_ema_600 := st.previous_emas_600 asset
  let st := { st with
    previous_prices := updState st.previous_prices asset (some md.price)
    previous_emas_240 := updState st.previous_emas_240 asset (some md.ema_240)
    previous_emas_600 := updState st.previous_emas_600 asset (some md.ema_600) }
  match previous_price, previous_ema_240, previous_ema_600 with
  | some pp, some pe240, some pe600 =>
    let ev240 : List CrossEvent :=
      if pp > pe240 ∧ md.price < md.ema_240 then
        [{ asset := asset, type := CrossType.PRICE_BELOW_EMA240,
           timestamp := md.timestamp, price := md.price, ema := md.ema_240 }]
      else []
    let ev600 : List CrossEvent :=
      if pp > pe600 ∧ md.price < md.ema_600 then
        [{ asset := asset, type := CrossType.PRICE_BELOW_EMA600,
           timestamp := md.timestamp, price := md.price, ema := md.ema_600 }]
      else []
    let cross_events := ev240 ++ ev600
    ({ st with
        recent_cross_events := updState st.recent_cross_events asset
          (st.recent_cross_events asset ++ cross_events)
        daily_cross_count := updState st.daily_cross_count asset
          (st.daily_cross_count asset + cross_events.length) },
      cross_events)
  | _, _, _ => (st, [])

/-- `MultiAssetStrategyEngine.has_recent_price_ema_cross` (strategy_engine.py
lines 377-384). -/
def has_recent_price_ema_cross (st : EngineState) (asset : String) (now : ℚ)
    (window_minutes : ℚ) : Bool :=
  ((st.recent_cross_events asset).filter
    (fun event => decide (now - event.timestamp ≤ window_minutes * 60))).length > 0

/-- `MultiAssetStrategyEngine.generate_asset_signal` (strategy_engine.py
lines 386-473). -/
def generate_asset_signal (st : EngineState) (md : MarketData) (now : ℚ) :
    EngineState × TradingSignal :=
  let asset := md.asset
  let (st, regime) := determine_market_regime st md
  let (st, cross_events) := detect_price_ema_crosses st md
  let in_position := (st.asset_positions asset).in_position
  let metadata : SignalMetadata :=
    { ema_240 := md.ema_240, ema_600 := md.ema_600, regime := regime,
      cross_events := cross_events }
  if in_position then
    (st, { asset := asset, signal_type := SignalType.NO_ACTION, price := md.price,
           reason := SignalReason.inPositionExitSeparately, metadata := metadata })
  else if regime ≠ MarketRegime.ACTIVE then
    (st, { asset := asset, signal_type := SignalType.NO_ACTION, price := md.price,
           reason := SignalReason.regimeNotActive regime, metadata := metadata })
  else if st.daily_cross_count asset ≥ st.cross_threshold then
    (st, { asset := asset, signal_type := SignalType.NO_ACTION, price := md.price,
           reason := SignalReason.dailyLimitExceeded (st.daily_cross_count asset)
             st.cross_threshold,
           metadata := metadata })
  else if ¬ has_recent_price_ema_cross st asset now 5 then
    (st, { asset := asset, signal_type := SignalType.NO_ACTION, price := md.price,
           reason := SignalReason.noRecentCross, metadata := metadata })
  else
    (st, { asset := asset, signal_type := SignalType.ENTER_SHORT, price := md.price,
           reason := SignalReason.crossEntry (cross_events.map (fun e => e.type)),
           metadata := metadata })

/-- `MultiAssetStrategyEngine.should_exit_position` (strategy_engine.py
lines 475-502). Hard-coded thresholds: 24-hour time limit, -1.5% stop loss,
+6% take profit. -/
def should_exit_position (st : EngineState) (asset : String)
    (current_price current_time : ℚ) : Bool :=
  if ¬ (st.asset_positions asset).in_position then false
  else
    let position := st.asset_positions asset
    let entry_price := position.entry_price
    let entry_time := position.entry_time
    let pnl_pct := ((entry_price - current_price) / entry_price) * 100
    let time_exit :=
      match entry_time with
      | some t => decide (current_time - t > 24 * 3600)
      | none => false
    if time_exit then true
    else if pnl_pct ≤ -1.5 then true
    else if pnl_pct ≥ 6 then true
    else false

/-- `MultiAssetStrategyEngine.reset_daily_cross_counts` (strategy_engine.py
lines 504-508): zeroes the daily counter of every asset. -/
def reset_daily_cross_counts (st : EngineState) : EngineState :=
  { st with daily_cross_count := fun _ => 0 }

/-- The engine state built by `MultiAssetStrategyEngine.__init__`
(strategy_engine.py lines 59-113), with the fixed BTC/ETH/SOL keys
generalized to all symbols. -/
def initEngineState : EngineState :=
  { asset_positions := fun _ =>
      { in_position := false, entry_price := 0, asset_amount := 0,
        leveraged_value := 0, entry_time := none }
    current_regimes := fun _ => MarketRegime.ACTIVE
    previous_prices := fun _ => none
    previous_emas_240 := fun _ => none
    previous_emas_600 := fun _ => none
    recent_cross_events := fun _ => []
    daily_cross_count := fun _ => 0
    cross_threshold := 12 }

/-- The regime returned by `determine_market_regime`, as a closed form. -/
lemma determine_market_regime_snd (st : EngineState) (md : MarketData) :
    (determine_market_regime st md).2 =
      (if md.price < md.ema_240 ∧ md.price < md.ema_600 then MarketRegime.ACTIVE
       else MarketRegime.INACTIVE) := rfl

/-- `determine_market_regime` touches only `current_regimes`. -/
lemma determine_market_regime_fst (st : EngineState) (md : MarketData) :
    (determine_market_regime st md).1 =
      { st with current_regimes :=
          updState st.current_regimes md.asset (determine_market_regime st md).2 } := rfl

/-- Market data used in the C6 disagreement instance: price 1 below both
EMAs 2 and 3 (canonical rule: Active; rejected between-the-EMAs rule:
Inactive). -/
def mdC6 : MarketData :=
  { asset := "BTC", price := 1, ema_240 := 2, ema_600 := 3, volume := 0, timestamp := 0 }

/-- C6: the regime classifier returns Active exactly when the price is
strictly below both EMAs and Inactive in every other case (hence when the
price equals either EMA), and it does not implement the rejected
between-the-two-EMAs rule: on `mdC6` the two rules disagree. -/
theorem c6_regime_active_iff_below_both (st : EngineState) (md : MarketData) :
    ((determine_market_regime st md).2 = MarketRegime.ACTIVE ↔
      md.price < md.ema_240 ∧ md.price < md.ema_600) ∧
    ((determine_market_regime st md).2 = MarketRegime.INACTIVE ↔
      ¬ (md.price < md.ema_240 ∧ md.price < md.ema_600)) ∧
    (md.price = md.ema_240 ∨ md.price = md.ema_600 →
      (determine_market_regime st md).2 = MarketRegime.INACTIVE) ∧
    (determine_market_regime initEngineState mdC6).2 ≠
      determine_market_regime_alternative mdC6 := by
  have hdis : (determine_market_regime initEngineState mdC6).2 ≠
      determine_market_regime_alternative mdC6 := by
    rw [determine_market_regime_snd]
    unfold determine_market_regime_alternative
    rw [if_pos (by norm_num [mdC6]), if_neg (by norm_num [mdC6])]
    intro hcon
    exact MarketRegime.noConfusion hcon
  rw [determine_market_regime_snd]
  by_cases h : md.price < md.ema_240 ∧ md.price < md.ema_600
  · refine ⟨by simp [h], by simp [h], ?_, hdis⟩
    rintro (he | he)
    · exact absurd h.1 (by rw [he]; exact lt_irrefl _)
    · exact absurd h.2 (by rw [he]; exact lt_irrefl _)
  · exact ⟨by simp [h], by simp [h], fun _ => by simp [h], hdis⟩

/-- C3: for an open position with positive entry price and a set entry time,
the exit check returns true exactly when the short P&L percentage
`(entry_price - current_price) / entry_price * 100` triggers the 24-hour
time limit, the -1.5% stop loss, or the +6% take profit (evaluated in that
order, all of which return the same exit decision); in particular with
entry price 100 it exits at price 101.5 and at price 94, and any position
older than 24 hours exits regardless of price. -/
theorem c3_exit_decision (st : EngineState) (asset : String) (price now t : ℚ)
    (hin : (st.asset_positions asset).in_position = true)
    (_hep : 0 < (st.asset_positions asset).entry_price)
    (het : (st.asset_positions asset).entry_time = some t) :
    (should_exit_position st asset price now = true ↔
      (now - t > 24 * 3600 ∨
        ((st.asset_positions asset).entry_price - price) /
            (st.asset_positions asset).entry_price * 100 ≤ -1.5 ∨
        ((st.asset_positions asset).entry_price - price) /
            (st.asset_positions asset).entry_price * 100 ≥ 6)) ∧
    ((st.asset_positions asset).entry_price = 100 →
      should_exit_position st asset 101.5 now = true ∧
      should_exit_position st asset 94 now = true) ∧
    (now - t > 24 * 3600 → should_exit_position st asset price now = true) := by
  have hrepr : ∀ p : ℚ, should_exit_position st asset p now =
      (if now - t > 24 * 3600 then true
       else if ((st.asset_positions asset).entry_price - p) /
           (st.asset_positions asset).entry_price * 100 ≤ -1.5 then true
       else if ((st.asset_positions asset).entry_price - p) /
           (st.asset_positions asset).entry_price * 100 ≥ 6 then true
       else false) := by
    intro p
    unfold should_exit_position
    simp only [hin, het, Bool.not_true, decide_eq_true_eq]
    split <;> simp_all
  refine ⟨?_, ?_, ?_⟩
  · rw [hrepr]
    split_ifs with h1 h2 h3
    · simp [h1]
    · simp [h1, h2]
    · simp [h1, h2, h3]
    · simp [h1, h2, h3]
  · intro h100
    constructor
    · rw [hrepr, h100]
      split_ifs with h1 h2 h3
      · rfl
      · rfl
      · rfl
      · exact absurd (by norm_num : ((100 : ℚ) - 101.5) / 100 * 100 ≤ -1.5) h2
    · rw [hrepr, h100]
      split_ifs with h1 h2 h3
      · rfl
      · rfl
      · rfl
      · exact absurd (by norm_num : ((100 : ℚ) - 94) / 100 * 100 ≥ 6) h3
  · intro h24
    rw [hrepr]
    simp [h24]

/-- Engine state with an open BTC short at entry price 100, quantity 1,
entered at time 0, used by the C3 witness. -/
def stC3 : EngineState := update_position initEngineState "BTC" true 100 1 1000 0

/-- C3 witness: the exit rules applied to a concrete state with an open
position at entry price 100 entered at time 0, evaluated at price 101.5,
time 3600. -/
theorem c3_exit_decision_witness :
    ((stC3.asset_positions "BTC").in_position = true ∧
      0 < (stC3.asset_positions "BTC").entry_price ∧
      (stC3.asset_positions "BTC").entry_time = some 0) ∧
    (should_exit_position stC3 "BTC" 101.5 3600 = true ↔
      ((3600 : ℚ) - 0 > 24 * 3600 ∨
        ((stC3.asset_positions "BTC").entry_price - 101.5) /
            (stC3.asset_positions "BTC").entry_price * 100 ≤ -1.5 ∨
        ((stC3.asset_positions "BTC").entry_price - 101.5) /
            (stC3.asset_positions "BTC").entry_price * 100 ≥ 6)) :=
  ⟨⟨rfl, by norm_num [stC3, update_position, initEngineState, updState], rfl⟩,
    (c3_exit_decision stC3 "BTC" 101.5 3600 0 rfl
      (by norm_num [stC3, update_position, initEngineState, updState]) rfl).1⟩

/-- `detect_price_ema_crosses` leaves positions and the threshold untouched. -/
lemma detect_preserves (st : EngineState) (md : MarketData) :
    (detect_price_ema_crosses st md).1.asset_positions = st.asset_positions ∧
    (detect_price_ema_crosses st md).1.cross_threshold = st.cross_threshold := by
  cases h1 : st.previous_prices md.asset <;>
    cases h2 : st.previous_emas_240 md.asset <;>
      cases h3 : st.previous_emas_600 md.asset <;>
        simp [detect_price_ema_crosses, h1, h2, h3]

/-- Closed form of `detect_price_ema_crosses` when previous data exists. -/
lemma detect_of_some (st : EngineState) (md : MarketData) (pp pe240 pe600 : ℚ)
    (h1 : st.previous_prices md.asset = some pp)
    (h2 : st.previous_emas_240 md.asset = some pe240)
    (h3 : st.previous_emas_600 md.asset = some pe600) :
    detect_price_ema_crosses st md =
      (let ev240 : List CrossEvent :=
        if pp > pe240 ∧ md.price < md.ema_240 then
          [{ asset := md.asset, type := CrossType.PRICE_BELOW_EMA240,
             timestamp := md.timestamp, price := md.price, ema := md.ema_240 }]
        else []
       let ev600 : List CrossEvent :=
        if pp > pe600 ∧ md.price < md.ema_600 then
          [{ asset := md.asset, type := CrossType.PRICE_BELOW_EMA600,
             timestamp := md.timestamp, price := md.price, ema := md.ema_600 }]
        else []
       ({ st with
           previous_prices := updState st.previous_prices md.asset (some md.price)
           previous_emas_240 := updState st.previous_emas_240 md.asset (some md.ema_240)
           previous_emas_600 := updState st.previous_emas_600 md.asset (some md.ema_600)
           recent_cross_events := updState st.recent_cross_events md.asset
             (st.recent_cross_events md.asset ++ (ev240 ++ ev600))
           daily_cross_count := updState st.daily_cross_count md.asset
             (st.daily_cross_count md.asset + (ev240 ++ ev600).length) },
         ev240 ++ ev600)) := by
  simp only [detect_price_ema_crosses]
  rw [h1, h2, h3]

/-- `detect_price_ema_crosses` emits nothing on the first observation. -/
lemma detect_of_none (st : EngineState) (md : MarketData)
    (h : st.previous_prices md.asset = none ∨ st.previous_emas_240 md.asset = none ∨
      st.previous_emas_600 md.asset = none) :
    (detect_price_ema_crosses st md).2 = [] ∧
    (detect_price_ema_crosses st md).1.daily_cross_count = st.daily_cross_count ∧
    (detect_price_ema_crosses st md).1.recent_cross_events = st.recent_cross_events := by
  cases h1 : st.previous_prices md.asset <;>
    cases h2 : st.previous_emas_240 md.asset <;>
      cases h3 : st.previous_emas_600 md.asset <;>
        simp_all [detect_price_ema_crosses]

/-- `has_recent_price_ema_cross` holds exactly when some stored cross event
lies within the window. -/
lemma has_recent_iff (st : EngineState) (asset : String) (now w : ℚ) :
    has_recent_price_ema_cross st asset now w = true ↔
      ∃ e ∈ st.recent_cross_events asset, now - e.timestamp ≤ w * 60 := by
  simp [has_recent_price_ema_cross, List.length_pos, List.filter_eq_nil_iff]

/-- `generate_asset_signal` written with explicit projections. -/
lemma generate_asset_signal_eq (st : EngineState) (md : MarketData) (now : ℚ) :
    generate_asset_signal st md now =
      (let regime := (determine_market_regime st md).2
       let stD := (detect_price_ema_crosses (determine_market_regime st md).1 md).1
       let cross_events := (detect_price_ema_crosses (determine_market_regime st md).1 md).2
       let metadata : SignalMetadata :=
         { ema_240 := md.ema_240, ema_600 := md.ema_600, regime := regime,
           cross_events := cross_events }
       if (stD.asset_positions md.asset).in_position then
         (stD, { asset := md.asset, signal_type := SignalType.NO_ACTION, price := md.price,
                 reason := SignalReason.inPositionExitSeparately, metadata := metadata })
       else if regime ≠ MarketRegime.ACTIVE then
         (stD, { asset := md.asset, signal_type := SignalType.NO_ACTION, price := md.price,
                 reason := SignalReason.regimeNotActive regime, metadata := metadata })
       else if stD.daily_cross_count md.asset ≥ stD.cross_threshold then
         (stD, { asset := md.asset, signal_type := SignalType.NO_ACTION, price := md.price,
                 reason := SignalReason.dailyLimitExceeded (stD.daily_cross_count md.asset)
                   stD.cross_threshold,
                 metadata := metadata })
       else if ¬ has_recent_price_ema_cross stD md.asset now 5 then
         (stD, { asset := md.asset, signal_type := SignalType.NO_ACTION, price := md.price,
                 reason := SignalReason.noRecentCross, metadata := metadata })
       else
         (stD, { asset := md.asset, signal_type := SignalType.ENTER_SHORT, price := md.price,
                 reason := SignalReason.crossEntry (cross_events.map (fun e => e.type)),
                 metadata := metadata })) := rfl

/-- C4: signal generation follows exactly the claimed first-match-wins order:
open position, then inactive regime, then the daily cross limit of 12
(checked against the counter as updated by this tick's cross detection),
then the absence of a cross event within the last 5 minutes each yield
NoAction; otherwise the signal is EnterShort at the snapshot price, carrying
the triggering cross types and the EMA values as diagnostics. -/
theorem c4_signal_decision_order (st : EngineState) (md : MarketData) (now : ℚ)
    (hthr : st.cross_threshold = 12) :
    (generate_asset_signal st md now).2.signal_type =
      (if (st.asset_positions md.asset).in_position then SignalType.NO_ACTION
       else if ¬ (md.price < md.ema_240 ∧ md.price < md.ema_600) then SignalType.NO_ACTION
       else if 12 ≤ (detect_price_ema_crosses (determine_market_regime st md).1
           md).1.daily_cross_count md.asset then SignalType.NO_ACTION
       else if ¬ ∃ e ∈ (detect_price_ema_crosses (determine_market_regime st md).1
           md).1.recent_cross_events md.asset, now - e.timestamp ≤ 5 * 60 then
         SignalType.NO_ACTION
       else SignalType.ENTER_SHORT) ∧
    ((generate_asset_signal st md now).2.signal_type = SignalType.ENTER_SHORT →
      (generate_asset_signal st md now).2.price = md.price ∧
      (generate_asset_signal st md now).2.reason =
        SignalReason.crossEntry
          (((detect_price_ema_crosses (determine_market_regime st md).1 md).2).map
            (fun e => e.type)) ∧
      (generate_asset_signal st md now).2.metadata =
        { ema_240 := md.ema_240, ema_600 := md.ema_600,
          regime := (determine_market_regime st md).2,
          cross_events := (detect_price_ema_crosses (determine_market_regime st md).1 md).2 }) := by
  have hAP : (detect_price_ema_crosses (determine_market_regime st md).1 md).1.asset_positions
      = st.asset_positions := (detect_preserves _ _).1
  have hCT : (detect_price_ema_crosses (determine_market_regime st md).1 md).1.cross_threshold
      = 12 := ((detect_preserves _ _).2).trans hthr
  rw [generate_asset_signal_eq]
  simp only [hAP, hCT]
  by_cases h1 : (st.asset_positions md.asset).in_position = true
  · simp [h1]
  · by_cases h2 : md.price < md.ema_240 ∧ md.price < md.ema_600
    · have hreg : (determine_market_regime st md).2 = MarketRegime.ACTIVE := by
        rw [determine_market_regime_snd, if_pos h2]
      by_cases h3 : 12 ≤ (detect_price_ema_crosses (determine_market_regime st md).1
          md).1.daily_cross_count md.asset
      · simp [h1, h2, h3, hreg]
      · by_cases h4 : ∃ e ∈ (detect_price_ema_crosses (determine_market_regime st md).1
            md).1.recent_cross_events md.asset, now - e.timestamp ≤ 5 * 60
        · have hrec : has_recent_price_ema_cross
              (detect_price_ema_crosses (determine_market_regime st md).1 md).1 md.asset now 5
              = true := (has_recent_iff _ _ _ _).mpr h4
          obtain ⟨e0, he0, hle0⟩ := h4
          have h4x : ¬ ∀ x ∈ (detect_price_ema_crosses (determine_market_regime st md).1
              md).1.recent_cross_events md.asset, 5 * 60 + x.timestamp < now := by
            intro hall
            exact absurd (hall e0 he0) (by linarith)
          simp [h1, h2, h3, hreg, hrec, h4x]
        · have hrec : ¬ has_recent_price_ema_cross
              (detect_price_ema_crosses (determine_market_regime st md).1 md).1 md.asset now 5
              = true := fun hc => h4 ((has_recent_iff _ _ _ _).mp hc)
          have h4x : ∀ x ∈ (detect_price_ema_crosses (determine_market_regime st md).1
              md).1.recent_cross_events md.asset, 5 * 60 + x.timestamp < now := by
            intro x hx
            by_contra hc
            exact h4 ⟨x, hx, by linarith⟩
          simp only [hreg] at *
          simp [h1, h2, h3, hrec]
          rw [if_pos h4x]
    · have hreg : (determine_market_regime st md).2 = MarketRegime.INACTIVE := by
        rw [determine_market_regime_snd, if_neg h2]
      simp [h1, h2, hreg]

/-- Engine state used by the C4 witness: fresh state with previous price 101
above previous EMAs 100 for BTC, so that the next snapshot triggers crosses. -/
def stC4 : EngineState :=
  { initEngineState with
      previous_prices := updState initEngineState.previous_prices "BTC" (some 101)
      previous_emas_240 := updState initEngineState.previous_emas_240 "BTC" (some 100)
      previous_emas_600 := updState initEngineState.previous_emas_600 "BTC" (some 100) }

/-- Market snapshot used by the C4 and C5 witnesses: BTC at price 99 below
both EMAs at 100, at timestamp 1000. -/
def mdC4 : MarketData :=
  { asset := "BTC", price := 99, ema_240 := 100, ema_600 := 100, volume := 0, timestamp := 1000 }

/-- C4 witness: the decision-order theorem applied to the concrete state
`stC4` and snapshot `mdC4` at time 1000. -/
theorem c4_signal_decision_order_witness :
    stC4.cross_threshold = 12 ∧
    ((generate_asset_signal stC4 mdC4 1000).2.signal_type =
      (if (stC4.asset_positions mdC4.asset).in_position then SignalType.NO_ACTION
       else if ¬ (mdC4.price < mdC4.ema_240 ∧ mdC4.price < mdC4.ema_600) then
         SignalType.NO_ACTION
       else if 12 ≤ (detect_price_ema_crosses (determine_market_regime stC4 mdC4).1
           mdC4).1.daily_cross_count mdC4.asset then SignalType.NO_ACTION
       else if ¬ ∃ e ∈ (detect_price_ema_crosses (determine_market_regime stC4 mdC4).1
           mdC4).1.recent_cross_events mdC4.asset, (1000 : ℚ) - e.timestamp ≤ 5 * 60 then
         SignalType.NO_ACTION
       else SignalType.ENTER_SHORT) ∧
    ((generate_asset_signal stC4 mdC4 1000).2.signal_type = SignalType.ENTER_SHORT →
      (generate_asset_signal stC4 mdC4 1000).2.price = mdC4.price ∧
      (generate_asset_signal stC4 mdC4 1000).2.reason =
        SignalReason.crossEntry
          (((detect_price_ema_crosses (determine_market_regime stC4 mdC4).1 mdC4).2).map
            (fun e => e.type)) ∧
      (generate_asset_signal stC4 mdC4 1000).2.metadata =
        { ema_240 := mdC4.ema_240, ema_600 := mdC4.ema_600,
          regime := (determine_market_regime stC4 mdC4).2,
          cross_events := (detect_price_ema_crosses (determine_market_regime stC4 mdC4).1
            mdC4).2 })) :=
  ⟨rfl, c4_signal_decision_order stC4 mdC4 1000 rfl⟩

/-- C5: when previous data exists, each of the two EMAs independently yields a
downward cross event exactly when the previous price was above the previous
EMA and the current price is below the current EMA; each emitted event is
appended to the asset's recent cross events and counted in the daily counter;
a simultaneous cross of both EMAs emits exactly two events; and on the first
observation for an asset no event is emitted regardless of values. -/
theorem c5_cross_events (st : EngineState) (md : MarketData) (pp pe240 pe600 : ℚ)
    (h1 : st.previous_prices md.asset = some pp)
    (h2 : st.previous_emas_240 md.asset = some pe240)
    (h3 : st.previous_emas_600 md.asset = some pe600) :
    ((∃ e ∈ (detect_price_ema_crosses st md).2, e.type = CrossType.PRICE_BELOW_EMA240) ↔
      pp > pe240 ∧ md.price < md.ema_240) ∧
    ((∃ e ∈ (detect_price_ema_crosses st md).2, e.type = CrossType.PRICE_BELOW_EMA600) ↔
      pp > pe600 ∧ md.price < md.ema_600) ∧
    (detect_price_ema_crosses st md).1.daily_cross_count md.asset =
      st.daily_cross_count md.asset + (detect_price_ema_crosses st md).2.length ∧
    (detect_price_ema_crosses st md).1.recent_cross_events md.asset =
      st.recent_cross_events md.asset ++ (detect_price_ema_crosses st md).2 ∧
    ((pp > pe240 ∧ md.price < md.ema_240) ∧ (pp > pe600 ∧ md.price < md.ema_600) →
      (detect_price_ema_crosses st md).2.length = 2) ∧
    (∀ st' : EngineState, st'.previous_prices md.asset = none →
      (detect_price_ema_crosses st' md).2 = []) := by
  have hcold : ∀ st' : EngineState, st'.previous_prices md.asset = none →
      (detect_price_ema_crosses st' md).2 = [] := by
    intro st' h
    exact (detect_of_none st' md (Or.inl h)).1
  rw [detect_of_some st md pp pe240 pe600 h1 h2 h3]
  by_cases hc240 : pp > pe240 ∧ md.price < md.ema_240 <;>
    by_cases hc600 : pp > pe600 ∧ md.price < md.ema_600 <;>
      refine ⟨?_, ?_, ?_, ?_, ?_, hcold⟩ <;>
        simp [hc240, hc600, updState]

/-- C5 witness: the cross-detection theorem applied to the concrete state
`stC4` (previous price 101 above previous EMAs 100) and snapshot `mdC4`
(price 99 below EMAs 100). -/
theorem c5_cross_events_witness :
    (stC4.previous_prices mdC4.asset = some 101 ∧
      stC4.previous_emas_240 mdC4.asset = some 100 ∧
      stC4.previous_emas_600 mdC4.asset = some 100) ∧
    (((∃ e ∈ (detect_price_ema_crosses stC4 mdC4).2,
        e.type = CrossType.PRICE_BELOW_EMA240) ↔
      (101 : ℚ) > 100 ∧ mdC4.price < mdC4.ema_240) ∧
    ((∃ e ∈ (detect_price_ema_crosses stC4 mdC4).2,
        e.type = CrossType.PRICE_BELOW_EMA600) ↔
      (101 : ℚ) > 100 ∧ mdC4.price < mdC4.ema_600) ∧
    (detect_price_ema_crosses stC4 mdC4).1.daily_cross_count mdC4.asset =
      stC4.daily_cross_count mdC4.asset + (detect_price_ema_crosses stC4 mdC4).2.length ∧
    (detect_price_ema_crosses stC4 mdC4).1.recent_cross_events mdC4.asset =
      stC4.recent_cross_events mdC4.asset ++ (detect_price_ema_crosses stC4 mdC4).2 ∧
    (((101 : ℚ) > 100 ∧ mdC4.price < mdC4.ema_240) ∧
        ((101 : ℚ) > 100 ∧ mdC4.price < mdC4.ema_600) →
      (detect_price_ema_crosses stC4 mdC4).2.length = 2) ∧
    (∀ st' : EngineState, st'.previous_prices mdC4.asset = none →
      (detect_price_ema_crosses st' mdC4).2 = [])) :=
  ⟨⟨rfl, rfl, rfl⟩, c5_cross_events stC4 mdC4 101 100 100 rfl rfl rfl⟩

/-! ## Scheduler daily reset (`scripts/start_trading.py`)

`MultiAssetTradingSystem.check_daily_reset` compares `datetime.now(utc)`
against the stored `last_daily_reset` date. A scheduler invocation instant is
modelled by its UTC calendar date (as a day index) plus hour, minute and
second of day. -/

/-- One scheduler invocation instant as read by `check_daily_reset`. -/
structure UtcTick where
  date : ℕ
  hour : ℕ
  minute : ℕ
  second : ℕ
deriving Repr, DecidableEq

/-- Seconds since UTC midnight of a tick; 00:01 UTC is 60 seconds. -/
def timeOfDaySeconds (t : UtcTick) : ℕ :=
  t.hour * 3600 + t.minute * 60 + t.second

/-- `MultiAssetTradingSystem.check_daily_reset` (start_trading.py lines
498-527). The Python condition is
`last is None or last != today and hour == 0 and minute >= 1`, which by
Python operator precedence parses as
`last is None or (last != today and hour == 0 and minute >= 1)`. When the
condition holds, the True branch invokes
`strategy_engine.reset_daily_cross_counts()` (the returned flag) and stores
today's date. -/
def check_daily_reset (last_daily_reset : Option ℕ) (now : UtcTick) :
    Option ℕ × Bool :=
  if last_daily_reset = none ∨
      (last_daily_reset ≠ some now.date ∧ now.hour = 0 ∧ 1 ≤ now.minute) then
    (some now.date, true)
  else
    (last_daily_reset, false)

/-- Number of invocations of `reset_daily_cross_counts` on ticks of calendar
date `d` along a run of `check_daily_reset` over `ticks` from the stored
state `last`. -/
def resets_on (last : Option ℕ) (ticks : List UtcTick) (d : ℕ) : ℕ :=
  match ticks with
  | [] => 0
  | t :: ts =>
    (if (check_daily_reset last t).2 = true ∧ t.date = d then 1 else 0) +
      resets_on (check_daily_reset last t).1 ts d

/-- From a stored date `e`, a chronological run never resets twice on the
same date, and never resets on a date that is not after `e`. -/
lemma resets_on_le_one (ticks : List UtcTick) :
    ∀ e : ℕ,
      List.Pairwise (fun a b => a.date ≤ b.date) ticks →
      (∀ u ∈ ticks, e ≤ u.date) →
      ∀ d, resets_on (some e) ticks d ≤ 1 ∧ (d ≤ e → resets_on (some e) ticks d = 0) := by
  induction ticks with
  | nil => intro e _ _ d; simp [resets_on]
  | cons t ts ih =>
    intro e hmono hall d
    rcases List.pairwise_cons.mp hmono with ⟨hhead, htail⟩
    have he_t : e ≤ t.date := hall t (List.mem_cons_self _ _)
    by_cases hfire : (some e : Option ℕ) = none ∨
        ((some e : Option ℕ) ≠ some t.date ∧ t.hour = 0 ∧ 1 ≤ t.minute)
    · have hne : e ≠ t.date := by
        rcases hfire with h | ⟨hne', -, -⟩
        · simp at h
        · intro hEq; exact hne' (by rw [hEq])
      have hlt : e < t.date := lt_of_le_of_ne he_t hne
      have ihs := ih t.date htail hhead
      simp only [resets_on, check_daily_reset, if_pos hfire]
      by_cases hd : t.date = d
      · subst hd
        have h0 := (ihs t.date).2 (le_refl _)
        constructor
        · simp [h0]
        · intro hde
          exact absurd hde (not_le.mpr hlt)
      · have hds := ihs d
        constructor
        · simpa [hd] using hds.1
        · intro hde
          have h0 := hds.2 (le_trans hde (le_of_lt hlt))
          simp [hd, h0]
    · simp only [resets_on, check_daily_reset, if_neg hfire]
      have hds := ih e htail (fun u hu => hall u (List.mem_cons_of_mem _ hu)) d
      constructor
      · simpa using hds.1
      · intro hde
        have h0 := hds.2 hde
        simp [h0]

/-- From a stored date `e`, a chronological run containing a qualifying tick
(hour 0, minute at least 1) on a later date `d` resets at least once on `d`. -/
lemma resets_on_ge_one (ticks : List UtcTick) :
    ∀ e d : ℕ,
      List.Pairwise (fun a b => a.date ≤ b.date) ticks →
      (∀ u ∈ ticks, e ≤ u.date) →
      e < d →
      (∃ u ∈ ticks, u.date = d ∧ u.hour = 0 ∧ 1 ≤ u.minute) →
      1 ≤ resets_on (some e) ticks d := by
  induction ticks with
  | nil => intro e d _ _ _ hex; simp at hex
  | cons t ts ih =>
    intro e d hmono hall hlt hex
    rcases List.pairwise_cons.mp hmono with ⟨hhead, htail⟩
    rcases hex with ⟨u, hu, hud, huh, hum⟩
    rcases List.mem_cons.mp hu with rfl | humem
    · -- the qualifying tick is the head: it fires
      have hfire : (some e : Option ℕ) = none ∨
          ((some e : Option ℕ) ≠ some u.date ∧ u.hour = 0 ∧ 1 ≤ u.minute) := by
        refine Or.inr ⟨?_, huh, hum⟩
        intro hc
        rw [hud] at hc
        exact absurd (Option.some.inj hc) (ne_of_lt hlt)
      have hed : ¬ e = d := ne_of_lt hlt
      simp [resets_on, check_daily_reset, hud, hed, huh, hum]
    · by_cases hfire : (some e : Option ℕ) = none ∨
          ((some e : Option ℕ) ≠ some t.date ∧ t.hour = 0 ∧ 1 ≤ t.minute)
      · simp only [resets_on, check_daily_reset, if_pos hfire]
        by_cases hd : t.date = d
        · simp [hd]
        · have htd : t.date < d := by
            have : t.date ≤ u.date := hhead u humem
            rw [hud] at this
            exact lt_of_le_of_ne this hd
          have htl := ih t.date d htail hhead htd ⟨u, humem, hud, huh, hum⟩
          omega
      · simp only [resets_on, check_daily_reset, if_neg hfire]
        have htl := ih e d htail (fun v hv => hall v (List.mem_cons_of_mem _ hv)) hlt
          ⟨u, humem, hud, huh, hum⟩
        omega

/-- C7 (counterexample): on the very first invocation of the process (stored
date `None`), `check_daily_reset` invokes `reset_daily_cross_counts` even at
00:00:30 UTC, a time earlier than 00:01 UTC: the Python condition
`last is None or last != today and hour == 0 and minute >= 1` short-circuits
on `last is None` before the time-of-day guards. -/
theorem c7_daily_reset_counterexample :
    (check_daily_reset none { date := 0, hour := 0, minute := 0, second := 30 }).2 = true ∧
    timeOfDaySeconds { date := 0, hour := 0, minute := 0, second := 30 } < 60 := by
  constructor
  · decide
  · decide

/-- C7 (amended): over any chronological run of `check_daily_reset` starting
with no stored date, the first invocation always fires immediately (whatever
the clock shows); the run then resets at most once per UTC calendar day,
exactly once on the first invocation's date, and exactly once on every later
date that contains an invocation at hour 0 with minute ≥ 1. (The original
claim's guarantee that a reset never happens before 00:01 UTC fails on the
first invocation, see `c7_daily_reset_counterexample`.) -/
theorem c7_daily_reset_exactly_once (t : UtcTick) (ticks : List UtcTick)
    (hmono : List.Pairwise (fun a b => a.date ≤ b.date) (t :: ticks)) :
    (check_daily_reset none t).2 = true ∧
    resets_on none (t :: ticks) t.date = 1 ∧
    (∀ d, t.date < d →
      (∃ u ∈ ticks, u.date = d ∧ u.hour = 0 ∧ 1 ≤ u.minute) →
      resets_on none (t :: ticks) d = 1) ∧
    (∀ d, resets_on none (t :: ticks) d ≤ 1) := by
  rcases List.pairwise_cons.mp hmono with ⟨hhead, htail⟩
  have hfirst : (check_daily_reset none t).2 = true := by simp [check_daily_reset]
  have hunfold : ∀ d, resets_on none (t :: ticks) d =
      (if t.date = d then 1 else 0) + resets_on (some t.date) ticks d := by
    intro d
    simp [resets_on, check_daily_reset]
  refine ⟨hfirst, ?_, ?_, ?_⟩
  · rw [hunfold]
    have h0 := (resets_on_le_one ticks t.date htail hhead t.date).2 (le_refl _)
    simp [h0]
  · intro d hd hex
    rw [hunfold]
    have hle := (resets_on_le_one ticks t.date htail hhead d).1
    have hge := resets_on_ge_one ticks t.date d htail hhead hd hex
    have hne : ¬ (t.date = d) := ne_of_lt hd
    simp only [hne, if_false]
    omega
  · intro d
    rw [hunfold]
    by_cases hd : t.date = d
    · subst hd
      have h0 := (resets_on_le_one ticks t.date htail hhead t.date).2 (le_refl _)
      simp [h0]
    · have hle := (resets_on_le_one ticks t.date htail hhead d).1
      simp only [hd, if_false]
      omega

/-- C7 witness: a three-tick run — first invocation at noon of day 0, then
two invocations at 00:05 and 00:10 of day 1 — applied to the amended
theorem. -/
theorem c7_daily_reset_exactly_once_witness :
    List.Pairwise (fun a b => a.date ≤ b.date)
      ({ date := 0, hour := 12, minute := 0, second := 0 } ::
        [{ date := 1, hour := 0, minute := 5, second := 0 },
         { date := 1, hour := 0, minute := 10, second := 0 }] : List UtcTick) ∧
    ((check_daily_reset none { date := 0, hour := 12, minute := 0, second := 0 }).2 = true ∧
      resets_on none
        ({ date := 0, hour := 12, minute := 0, second := 0 } ::
          [{ date := 1, hour := 0, minute := 5, second := 0 },
           { date := 1, hour := 0, minute := 10, second := 0 }])
        (UtcTick.date { date := 0, hour := 12, minute := 0, second := 0 }) = 1 ∧
    (∀ d, (UtcTick.date { date := 0, hour := 12, minute := 0, second := 0 }) < d →
      (∃ u ∈ [({ date := 1, hour := 0, minute := 5, second := 0 } : UtcTick),
              { date := 1, hour := 0, minute := 10, second := 0 }],
        u.date = d ∧ u.hour = 0 ∧ 1 ≤ u.minute) →
      resets_on none
        ({ date := 0, hour := 12, minute := 0, second := 0 } ::
          [{ date := 1, hour := 0, minute := 5, second := 0 },
           { date := 1, hour := 0, minute := 10, second := 0 }]) d = 1) ∧
    (∀ d, resets_on none
        ({ date := 0, hour := 12, minute := 0, second := 0 } ::
          [{ date := 1, hour := 0, minute := 5, second := 0 },
           { date := 1, hour := 0, minute := 10, second := 0 }]) d ≤ 1)) :=
  ⟨by decide,
    c7_daily_reset_exactly_once
      { date := 0, hour := 12, minute := 0, second := 0 }
      [{ date := 1, hour := 0, minute := 5, second := 0 },
       { date := 1, hour := 0, minute := 10, second := 0 }]
      (by decide)⟩

/-! ## Order submission with retry (`MultiAssetTradingSystem.execute_signal`)

The exchange is modelled by an environment giving, per attempt index, whether
the `place_order` call succeeds, and the instrument-spec cache contents after
the re-fetch that precedes each retry. -/

/-- Exchange behaviour during one `execute_signal` call: `submit i` is the
outcome of the i-th `place_order` attempt (0-based); `specs i` is the cached
instrument spec visible to the validation preceding attempt `i` (`specs 0`
is the cache at entry; `specs (i+1)` reflects the re-fetch after failure of
attempt `i`). -/
structure OrderAttemptEnv where
  submit : ℕ → Bool
  specs : ℕ → Option InstrumentSpec

/-- Outcome of the order-attempt loop: the quantity of the successful
submission (if any), the number of `place_order` calls made, and the number
of 1-second backoff sleeps taken. -/
structure ExecOutcome where
  placed_qty : Option ℚ
  attempts : ℕ
  sleeps : ℕ
deriving Repr, DecidableEq

/-- `max_retries` of `execute_signal` (start_trading.py line 320). -/
def max_retries : ℕ := 3

/-- The retry loop of `MultiAssetTradingSystem.execute_signal`
(start_trading.py lines 321-357): attempt `place_order`; on success stop; on
failure of the final attempt re-raise (no order placed); otherwise sleep 1 s,
re-fetch the instrument specs and re-validate `raw_quantity` against them,
aborting if the validation fails and retrying with the corrected quantity
otherwise. -/
def order_retry_loop (env : OrderAttemptEnv) (raw_quantity price : ℚ)
    (qty : ℚ) (attempt sleeps : ℕ) : ExecOutcome :=
  if h : attempt < max_retries then
    if env.submit attempt then
      { placed_qty := some qty, attempts := attempt + 1, sleeps := sleeps }
    else if attempt = max_retries - 1 then
      { placed_qty := none, attempts := attempt + 1, sleeps := sleeps }
    else
      let validation := validate_order_params (env.specs (attempt + 1)) raw_quantity (some price)
      if validation.valid then
        order_retry_loop env raw_quantity price validation.corrected_qty (attempt + 1) (sleeps + 1)
      else
        { placed_qty := none, attempts := attempt + 1, sleeps := sleeps + 1 }
  else
    { placed_qty := none, attempts := attempt, sleeps := sleeps }
termination_by max_retries - attempt
decreasing_by simp_wf; omega

/-- The ENTER_SHORT execution slice of `MultiAssetTradingSystem.execute_signal`
(start_trading.py lines 277-366) from the computed target USDT value onward:
size the order, validate it, run the attempt loop, and update the position
ledger only when a submission succeeded. An exception from the final attempt
propagates to the caller's handler, which logs it without touching the
ledger. -/
def execute_signal_slice (env : OrderAttemptEnv) (st : EngineState) (asset : String)
    (price leveraged_value now : ℚ) : EngineState × ExecOutcome :=
  let raw_quantity := leveraged_value / price
  let corrected_quantity := calculate_quantity_for_usdt_value (env.specs 0) leveraged_value price
  if corrected_quantity ≤ 0 then
    (st, { placed_qty := none, attempts := 0, sleeps := 0 })
  else
    let validation := validate_order_params (env.specs 0) corrected_quantity (some price)
    if ¬ validation.valid then
      (st, { placed_qty := none, attempts := 0, sleeps := 0 })
    else
      let outcome := order_retry_loop env raw_quantity price validation.corrected_qty 0 0
      match outcome.placed_qty with
      | some qty => (update_position st asset true price qty leveraged_value now, outcome)
      | none => (st, outcome)

/-- C8: for an EnterShort execution whose pre-validation succeeds, at most 3
submission attempts are made; if the first two submissions fail and the third
succeeds (with both re-validations of the raw quantity passing), the position
is opened with the quantity re-validated against the last re-fetched spec,
after 3 attempts and 2 one-second backoffs; if all three submissions fail, no
order is recorded and the position ledger is left unchanged. -/
theorem c8_retry_behavior (env : OrderAttemptEnv) (st : EngineState) (asset : String)
    (price leveraged_value now : ℚ)
    (hqty : 0 < calculate_quantity_for_usdt_value (env.specs 0) leveraged_value price)
    (hvalid : (validate_order_params (env.specs 0)
        (calculate_quantity_for_usdt_value (env.specs 0) leveraged_value price)
        (some price)).valid = true) :
    (execute_signal_slice env st asset price leveraged_value now).2.attempts ≤ 3 ∧
    (env.submit 0 = false → env.submit 1 = false → env.submit 2 = true →
      (validate_order_params (env.specs 1) (leveraged_value / price) (some price)).valid = true →
      (validate_order_params (env.specs 2) (leveraged_value / price) (some price)).valid = true →
      (execute_signal_slice env st asset price leveraged_value now).2.attempts = 3 ∧
      (execute_signal_slice env st asset price leveraged_value now).2.sleeps = 2 ∧
      (execute_signal_slice env st asset price leveraged_value now).2.placed_qty =
        some ((validate_order_params (env.specs 2) (leveraged_value / price)
          (some price)).corrected_qty) ∧
      (execute_signal_slice env st asset price leveraged_value now).1 =
        update_position st asset true price
          ((validate_order_params (env.specs 2) (leveraged_value / price)
            (some price)).corrected_qty)
          leveraged_value now) ∧
    (env.submit 0 = false → env.submit 1 = false → env.submit 2 = false →
      (execute_signal_slice env st asset price leveraged_value now).2.placed_qty = none ∧
      (execute_signal_slice env st asset price leveraged_value now).1 = st) := by
  simp only [execute_signal_slice]
  rw [if_neg (not_le.mpr hqty)]
  simp only [hvalid, not_true, if_false]
  by_cases hs0 : env.submit 0 = true
  · simp [order_retry_loop, max_retries, hs0]
  · rw [Bool.not_eq_true] at hs0
    by_cases hv1 : (validate_order_params (env.specs 1) (leveraged_value / price)
        (some price)).valid = true
    · by_cases hs1 : env.submit 1 = true
      · simp [order_retry_loop, max_retries, hs0, hv1, hs1]
      · rw [Bool.not_eq_true] at hs1
        by_cases hv2 : (validate_order_params (env.specs 2) (leveraged_value / price)
            (some price)).valid = true
        · by_cases hs2 : env.submit 2 = true
          · simp [order_retry_loop, max_retries, hs0, hv1, hs1, hv2, hs2]
          · rw [Bool.not_eq_true] at hs2
            simp [order_retry_loop, max_retries, hs0, hv1, hs1, hv2, hs2]
        · rw [Bool.not_eq_true] at hv2
          simp [order_retry_loop, max_retries, hs0, hv1, hs1, hv2]
    · rw [Bool.not_eq_true] at hv1
      simp [order_retry_loop, max_retries, hs0, hv1]

/-- Environment used by the C8 witness: the first two submissions fail and
the third succeeds; the cached spec is always `specC1`. -/
def envC8 : OrderAttemptEnv :=
  { submit := fun i => decide (2 ≤ i), specs := fun _ => some specC1 }

/-- C8 witness: the retry theorem applied to `envC8`, the fresh engine state,
price 1 and target value 10. -/
theorem c8_retry_behavior_witness :
    (0 < calculate_quantity_for_usdt_value (envC8.specs 0) 10 1 ∧
      (validate_order_params (envC8.specs 0)
        (calculate_quantity_for_usdt_value (envC8.specs 0) 10 1) (some 1)).valid = true) ∧
    ((execute_signal_slice envC8 initEngineState "BTC" 1 10 0).2.attempts ≤ 3 ∧
    (envC8.submit 0 = false → envC8.submit 1 = false → envC8.submit 2 = true →
      (validate_order_params (envC8.specs 1) ((10 : ℚ) / 1) (some 1)).valid = true →
      (validate_order_params (envC8.specs 2) ((10 : ℚ) / 1) (some 1)).valid = true →
      (execute_signal_slice envC8 initEngineState "BTC" 1 10 0).2.attempts = 3 ∧
      (execute_signal_slice envC8 initEngineState "BTC" 1 10 0).2.sleeps = 2 ∧
      (execute_signal_slice envC8 initEngineState "BTC" 1 10 0).2.placed_qty =
        some ((validate_order_params (envC8.specs 2) ((10 : ℚ) / 1)
          (some 1)).corrected_qty) ∧
      (execute_signal_slice envC8 initEngineState "BTC" 1 10 0).1 =
        update_position initEngineState "BTC" true 1
          ((validate_order_params (envC8.specs 2) ((10 : ℚ) / 1) (some 1)).corrected_qty)
          10 0) ∧
    (envC8.submit 0 = false → envC8.submit 1 = false → envC8.submit 2 = false →
      (execute_signal_slice envC8 initEngineState "BTC" 1 10 0).2.placed_qty = none ∧
      (execute_signal_slice envC8 initEngineState "BTC" 1 10 0).1 = initEngineState)) :=
  ⟨⟨by norm_num [envC8, calculate_quantity_for_usdt_value, round_quantity, truncQ, specC1],
      by norm_num [envC8, calculate_quantity_for_usdt_value, validate_order_params,
        round_quantity, truncQ, specC1]⟩,
    c8_retry_behavior envC8 initEngineState "BTC" 1 10 0
      (by norm_num [envC8, calculate_quantity_for_usdt_value, round_quantity, truncQ, specC1])
      (by norm_num [envC8, calculate_quantity_for_usdt_value, validate_order_params,
        round_quantity, truncQ, specC1])⟩

/-! ## Quick-exit cooldown

`check_position_exits` (start_trading.py lines 440-446) computes the trade
duration in minutes and calls `strategy_engine.apply_quick_exit_cooldown`,
but that method (and any cooldown state or entry gate) is absent from
`src/src/core/strategy_engine.py`; the definitions below model the missing
pieces from the spec. -/

/-- Modelled from the spec: the per-asset `cooldown_until` timestamp of
`AssetState` (spec §3), missing from the engine class in src/. -/
def CooldownMap := String → Option ℚ

/-- Modelled from the spec: `apply_quick_exit_cooldown(asset,
trade_duration_minutes)`, called at start_trading.py line 444 but not defined
in src/src/core/strategy_engine.py. Per spec §4.4 and the caller's comment, a
trade closed in under 60 minutes starts a cooldown lasting the configured
window; the returned flag reports whether the cooldown was applied. -/
def apply_quick_exit_cooldown (cooldown_until : CooldownMap) (asset : String)
    (trade_duration_minutes now cooldown_window_minutes : ℚ) : CooldownMap × Bool :=
  if trade_duration_minutes < 60 then
    (updState cooldown_until asset (some (now + cooldown_window_minutes * 60)), true)
  else
    (cooldown_until, false)

/-- Modelled from the spec: "the asset is barred from new entries until a
configured cooldown window elapses" (spec §4.4). -/
def entry_barred (cooldown_until : CooldownMap) (asset : String) (now : ℚ) : Bool :=
  match cooldown_until asset with
  | some t => decide (now < t)
  | none => false

/-- Modelled from the spec: the scheduler's exit path (start_trading.py lines
440-446) applies the quick-exit cooldown after closing a position whenever the
entry time is known, passing the trade duration in minutes. -/
def after_exit_apply_cooldown (cooldown_until : CooldownMap) (asset : String)
    (entry_time : Option ℚ) (now window : ℚ) : CooldownMap × Bool :=
  match entry_time with
  | some t => apply_quick_exit_cooldown cooldown_until asset ((now - t) / 60) now window
  | none => (cooldown_until, false)

/-- Modelled from the spec: an EnterShort signal is executed only for assets
not currently barred by the cooldown. -/
def entry_signal_executed (cooldown_until : CooldownMap) (sig : TradingSignal)
    (now : ℚ) : Bool :=
  decide (sig.signal_type = SignalType.ENTER_SHORT) && ! entry_barred cooldown_until sig.asset now

/-- C9: after a position exit whose trade duration is under 60 minutes, the
quick-exit cooldown is applied to the asset, and at every instant before the
cooldown window elapses the asset is barred from entries: no EnterShort
signal for it is executed. -/
theorem c9_quick_exit_cooldown (cooldowns : CooldownMap) (asset : String)
    (entry_time now window : ℚ)
    (hdur : (now - entry_time) / 60 < 60) :
    (after_exit_apply_cooldown cooldowns asset (some entry_time) now window).2 = true ∧
    (∀ u : ℚ, u < now + window * 60 →
      entry_barred (after_exit_apply_cooldown cooldowns asset (some entry_time) now window).1
        asset u = true ∧
      (∀ sig : TradingSignal, sig.asset = asset →
        entry_signal_executed
          (after_exit_apply_cooldown cooldowns asset (some entry_time) now window).1
          sig u = false)) := by
  simp only [after_exit_apply_cooldown, apply_quick_exit_cooldown, if_pos hdur]
  refine ⟨trivial, ?_⟩
  intro u hu
  have hbar : entry_barred (updState cooldowns asset (some (now + window * 60))) asset u
      = true := by
    simp [entry_barred, updState, hu]
  refine ⟨hbar, ?_⟩
  intro sig hsig
  simp [entry_signal_executed, hsig, hbar]

/-- C9 witness: the cooldown theorem applied to a trade entered at time 0 and
exited at time 600 (a 10-minute trade) with a 30-minute cooldown window,
checked 1000 seconds after the exit decision. -/
theorem c9_quick_exit_cooldown_witness :
    ((600 : ℚ) - 0) / 60 < 60 ∧
    ((after_exit_apply_cooldown (fun _ => none) "BTC" (some 0) 600 30).2 = true ∧
      (∀ u : ℚ, u < 600 + 30 * 60 →
        entry_barred (after_exit_apply_cooldown (fun _ => none) "BTC" (some 0) 600 30).1
          "BTC" u = true ∧
        (∀ sig : TradingSignal, sig.asset = "BTC" →
          entry_signal_executed
            (after_exit_apply_cooldown (fun _ => none) "BTC" (some 0) 600 30).1
            sig u = false))) :=
  ⟨by norm_num,
    c9_quick_exit_cooldown (fun _ => none) "BTC" 0 600 30 (by norm_num)⟩

/-! ## Bar-boundary scheduling (`MultiAssetTradingSystem.get_next_5min_close_time`) -/

/-- A Python `datetime` value (UTC). -/
structure PyDateTime where
  year : ℕ
  month : ℕ
  day : ℕ
  hour : ℕ
  minute : ℕ
  second : ℕ
  microsecond : ℕ
deriving Repr, DecidableEq

/-- Gregorian leap year, as implemented by Python's `calendar`/`datetime`. -/
def isLeapYear (y : ℕ) : Bool :=
  decide ((y % 4 = 0 ∧ ¬ y % 100 = 0) ∨ y % 400 = 0)

/-- Number of days of month `m` of year `y` (Python `calendar.monthrange`). -/
def daysInMonth (y m : ℕ) : ℕ :=
  if m = 2 then (if isLeapYear y then 29 else 28)
  else if m = 4 ∨ m = 6 ∨ m = 9 ∨ m = 11 then 30
  else 31

/-- `datetime.replace(day=..., hour=..., minute=..., second=...,
microsecond=...)`: Python validates the new field values against the
unchanged year and month and raises `ValueError` when the day does not exist
in that month (or a time field is out of range). -/
def pyReplace (dt : PyDateTime) (day hour minute second microsecond : ℕ) :
    Except String PyDateTime :=
  if ¬ (1 ≤ day ∧ day ≤ daysInMonth dt.year dt.month) then
    Except.error "day is out of range for month"
  else if ¬ (hour ≤ 23) then Except.error "hour must be in 0..23"
  else if ¬ (minute ≤ 59) then Except.error "minute must be in 0..59"
  else
    Except.ok { dt with day := day, hour := hour, minute := minute,
                        second := second, microsecond := microsecond }

/-- `MultiAssetTradingSystem.get_next_5min_close_time` (start_trading.py
lines 157-176). Integer division `//` of Python on naturals is `Nat.div`. -/
def get_next_5min_close_time (now : PyDateTime) : Except String PyDateTime :=
  let minutes := now.minute
  let next_5min := (minutes / 5 + 1) * 5
  if 60 ≤ next_5min then
    let next_hour := now.hour + 1
    if 24 ≤ next_hour then
      let next_day := now.day + 1
      pyReplace now next_day 0 0 0 0
    else
      pyReplace now now.day next_hour 0 0 0
  else
    pyReplace now now.day now.hour next_5min 0 0

/-- Microseconds since the start of the month, used to compare instants of
the same calendar month. -/
def microOfMonth (dt : PyDateTime) : ℕ :=
  dt.microsecond + 1000000 * (dt.second + 60 * (dt.minute + 60 * (dt.hour + 24 * dt.day)))

/-- C10: at 23:57 on the last day of a month (here 2025-01-31) the
computation sets `day := now.day + 1 = 32`, which `datetime.replace` rejects,
so `get_next_5min_close_time` raises `ValueError` instead of returning the
next boundary 2025-02-01 00:00; on adjacent inputs that stay inside the month
it does return the expected exact 5-minute boundary. -/
theorem c10_month_boundary_failure :
    get_next_5min_close_time
      { year := 2025, month := 1, day := 31, hour := 23, minute := 57,
        second := 0, microsecond := 0 } =
      Except.error "day is out of range for month" ∧
    get_next_5min_close_time
      { year := 2025, month := 1, day := 31, hour := 23, minute := 54,
        second := 0, microsecond := 0 } =
      Except.ok
        { year := 2025, month := 1, day := 31, hour := 23, minute := 55,
          second := 0, microsecond := 0 } ∧
    get_next_5min_close_time
      { year := 2025, month := 1, day := 30, hour := 23, minute := 57,
        second := 0, microsecond := 0 } =
      Except.ok
        { year := 2025, month := 1, day := 31, hour := 0, minute := 0,
          second := 0, microsecond := 0 } := by
  refine ⟨?_, ?_, ?_⟩ <;> rfl

/-- Away from the failing month-end window, `get_next_5min_close_time` does
return the next exact 5-minute boundary of the same month: a strictly later
instant, at most 5 minutes ahead, with zero seconds and microseconds and a
minute that is a multiple of 5. -/
lemma get_next_5min_close_time_ok_within_month (dt : PyDateTime)
    (hd1 : 1 ≤ dt.day) (hd2 : dt.day ≤ daysInMonth dt.year dt.month)
    (hh : dt.hour ≤ 23) (hm : dt.minute ≤ 59) (hs : dt.second ≤ 59)
    (hus : dt.microsecond < 1000000)
    (hnotend : ¬ (dt.day = daysInMonth dt.year dt.month ∧ dt.hour = 23 ∧ 55 ≤ dt.minute)) :
    ∃ dt' : PyDateTime, get_next_5min_close_time dt = Except.ok dt' ∧
      dt'.year = dt.year ∧ dt'.month = dt.month ∧
      dt'.second = 0 ∧ dt'.microsecond = 0 ∧ dt'.minute % 5 = 0 ∧
      microOfMonth dt < microOfMonth dt' ∧
      microOfMonth dt' ≤ microOfMonth dt + 5 * 60 * 1000000 := by
  by_cases hb : 60 ≤ (dt.minute / 5 + 1) * 5
  · have hmin55 : 55 ≤ dt.minute := by omega
    by_cases hhh : 24 ≤ dt.hour + 1
    · have hhour : dt.hour = 23 := by omega
      have hday : dt.day + 1 ≤ daysInMonth dt.year dt.month := by
        rcases Nat.lt_or_ge dt.day (daysInMonth dt.year dt.month) with h | h
        · omega
        · exact absurd ⟨le_antisymm hd2 h, hhour, hmin55⟩ hnotend
      refine ⟨{ dt with day := dt.day + 1, hour := 0, minute := 0, second := 0, microsecond := 0 }, ?_, rfl, rfl, rfl, rfl, by rfl, ?_, ?_⟩
      · simp only [get_next_5min_close_time, pyReplace, if_pos hb, if_pos hhh]
        rw [if_neg (not_not_intro ⟨by omega, hday⟩)]
        norm_num
      · simp only [microOfMonth]
        omega
      · simp only [microOfMonth]
        omega
    · refine ⟨{ dt with day := dt.day, hour := dt.hour + 1, minute := 0, second := 0, microsecond := 0 }, ?_, rfl, rfl, rfl, rfl, by rfl, ?_, ?_⟩
      · simp only [get_next_5min_close_time, pyReplace, if_pos hb, if_neg hhh]
        rw [if_neg (not_not_intro ⟨hd1, hd2⟩)]
        rw [if_neg (not_not_intro (by omega : dt.hour + 1 ≤ 23))]
        norm_num
      · simp only [microOfMonth]
        omega
      · simp only [microOfMonth]
        omega
  · refine ⟨{ dt with day := dt.day, hour := dt.hour, minute := (dt.minute / 5 + 1) * 5, second := 0, microsecond := 0 }, ?_, rfl, rfl, rfl, rfl, by simp [Nat.mul_mod_left], ?_, ?_⟩
    · simp only [get_next_5min_close_time, pyReplace, if_neg hb]
      rw [if_neg (not_not_intro ⟨hd1, hd2⟩)]
      rw [if_neg (not_not_intro hh)]
      rw [if_neg (not_not_intro (by omega : (dt.minute / 5 + 1) * 5 ≤ 59))]
    · simp only [microOfMonth]
      omega
    · simp only [microOfMonth]
      omega

end CryptoShort
